import Mathlib

/-!
Verification of the MinerVGA `.LBR` sprite-library decoder
(`parse_minervga_lbr.py`).

The embedding mirrors the Python source:
* `signed_to_unsigned_16`  — `signed_to_unsigned_16(val)` (lines 42–46);
* `extract_bits`           — `extract_bits(value)` (lines 48–54), Python's
  `value >> i` on an `int` is floor division by `2^i` (`Int.fdiv`) and
  `& 1` is the nonnegative remainder mod 2 (`Int.emod`);
* `sprite_row` / `parse_sprite_data` — `parse_sprite_data` (lines 56–105);
  list indexing `data_values[i]` is modelled by `pyIndex`, which raises
  (returns `Except.error`) out of range, and `int(...)` by `pyInt`;
* `tokenize_line`          — the character loop of `parse_lbr_file`
  (lines 150–164);
* `parse_record_line` / `parse_lbr_file` — the rest of `parse_lbr_file`
  (lines 124–199); `content.strip()` is `pyStrip`, `split(...)` is
  `pySplitChar`, `strip('"')` is `pyStripQuotes`, and Python slicing
  `l[:k]` (with a possibly negative `k`) is `pySliceTo`.
-/

deriving instance DecidableEq for Except

/-- The whitespace characters stripped by Python's `str.strip()`
(ASCII fragment, which covers everything in a `.LBR` text line). -/
def isPySpace (c : Char) : Bool :=
  c = ' ' ∨ c = '\t' ∨ c = '\n' ∨ c = '\r' ∨ c = '\x0b' ∨ c = '\x0c'

/-- Python `str.strip()`: remove leading and trailing whitespace. -/
def pyStrip (s : String) : String :=
  ⟨((s.toList.dropWhile isPySpace).reverse.dropWhile isPySpace).reverse⟩

/-- Python `str.strip('"')`: remove every leading and trailing `"`. -/
def pyStripQuotes (s : String) : String :=
  ⟨((s.toList.dropWhile (· = '"')).reverse.dropWhile (· = '"')).reverse⟩

/-- Helper of `pySplitChar`: `cur` holds the characters of the current
field in reverse. -/
def splitCharAux (sep : Char) (cur : List Char) : List Char → List String
  | [] => [⟨cur.reverse⟩]
  | c :: rest =>
    if c = sep then ⟨cur.reverse⟩ :: splitCharAux sep [] rest
    else splitCharAux sep (c :: cur) rest

/-- Python `str.split(sep)` for a one-character separator: split at every
occurrence, keeping empty fields (`"".split(sep) == [""]`). -/
def pySplitChar (s : String) (sep : Char) : List String :=
  splitCharAux sep [] s.toList

/-- Python `int(str)`: optional surrounding whitespace, an optional sign,
then one or more decimal digits; anything else raises `ValueError`. -/
def pyInt (s : String) : Except String Int :=
  let t := (pyStrip s).toList
  let core : Int × List Char :=
    match t with
    | '-' :: rest => (-1, rest)
    | '+' :: rest => (1, rest)
    | _ => (1, t)
  if core.2 ≠ [] ∧ core.2.all Char.isDigit then
    Except.ok (core.1 * Int.ofNat
      (core.2.foldl (fun acc c => 10 * acc + (c.toNat - 48)) 0))
  else
    Except.error ("ValueError: invalid literal for int: " ++ s)

/-- Python list indexing `l[i]` for `0 ≤ i`: raises `IndexError` when out
of range. -/
def pyIndex {α : Type} (l : List α) (i : Nat) : Except String α :=
  match l[i]? with
  | some x => Except.ok x
  | none => Except.error "IndexError: list index out of range"

/-- Python slice `l[:k]` where `k` may be negative (counts from the end). -/
def pySliceTo {α : Type} (l : List α) (k : Int) : List α :=
  if k < 0 then l.take (l.length - (-k).toNat) else l.take k.toNat

/-- `signed_to_unsigned_16` (source lines 42–46): convert a signed 16-bit
int to unsigned. -/
def signed_to_unsigned_16 (val : Int) : Int :=
  if val < 0 then val + 65536 else val

/-- Bit `k` of a Python integer: `(u >> k) & 1`. -/
def bitOf (u : Int) (k : Nat) : Nat :=
  ((u.fdiv (2 ^ k)) % 2).toNat

/-- `extract_bits` (source lines 48–54): extract the 16 bits of `value`
MSB first (loop `i = 15, …, 0`), then return `bits[8:16] + bits[0:8]`. -/
def extract_bits (value : Int) : List Nat :=
  let bits := (List.range 16).map (fun j => ((value.fdiv (2 ^ (15 - j))) % 2).toNat)
  bits.drop 8 ++ bits.take 8

/-- The per-pixel color combination of `parse_sprite_data`
(source lines 93–98): `plane_bits[p][x]` contributes bit `p`. -/
def combine_color (plane_bits : List (List Nat)) (x : Nat) : Nat :=
  ((plane_bits.getD 0 []).getD x 0 <<< 0) |||
  ((plane_bits.getD 1 []).getD x 0 <<< 1) |||
  ((plane_bits.getD 2 []).getD x 0 <<< 2) |||
  ((plane_bits.getD 3 []).getD x 0 <<< 3)

/-- One iteration of the row loop of `parse_sprite_data`
(source lines 72–103) at cursor `data_idx`: fetch (or zero-pad) the 4
plane words, decode them, and build the row of `width` pixels. -/
def sprite_row (data_values : List String) (width : Int) (data_idx : Nat) :
    Except String (List Nat) := do
  let plane_values ←
    if data_values.length < data_idx + 4 then
      pure [(0 : Int), 0, 0, 0]
    else do
      let s0 ← pyIndex data_values data_idx
      let v0 ← pyInt s0
      let s1 ← pyIndex data_values (data_idx + 1)
      let v1 ← pyInt s1
      let s2 ← pyIndex data_values (data_idx + 2)
      let v2 ← pyInt s2
      let s3 ← pyIndex data_values (data_idx + 3)
      let v3 ← pyInt s3
      pure [signed_to_unsigned_16 v0, signed_to_unsigned_16 v1,
            signed_to_unsigned_16 v2, signed_to_unsigned_16 v3]
  let plane_bits := plane_values.map extract_bits
  pure ((List.range width.toNat).map (fun x =>
    if x < 16 then combine_color plane_bits x else 0))

/-- The row loop of `parse_sprite_data`: `n` remaining rows, advancing the
cursor by exactly 4 words per row. -/
def sprite_rows (data_values : List String) (width : Int) (data_idx : Nat) :
    Nat → Except String (List (List Nat))
  | 0 => pure []
  | n + 1 => do
    let row ← sprite_row data_values width data_idx
    let rest ← sprite_rows data_values width (data_idx + 4) n
    pure (row :: rest)

/-- `parse_sprite_data` (source lines 56–105): decode the planar data of
one sprite record into a `height × width` grid of color indices.
(The source also computes `words_per_row`, lines 66–68, but never uses
it: the cursor always advances by 4 per row.) -/
def parse_sprite_data (data_values : List String) (width height : Int) :
    Except String (List (List Nat)) :=
  sprite_rows data_values width 0 height.toNat

/-- One parsed sprite record (source lines 187–193). -/
structure SpriteRecord where
  index : Int
  name : String
  width : Int
  height : Int
  data : List String
  deriving Repr, DecidableEq

/-- One step of the tokenizer loop of `parse_lbr_file`
(source lines 154–162): state is `(parts, in_quotes, current)`. -/
def tokenize_step (st : List String × Bool × String) (c : Char) :
    List String × Bool × String :=
  let (parts, in_quotes, current) := st
  if c = '"' then
    (parts, !in_quotes, current.push c)
  else if c = ',' ∧ in_quotes = false then
    (parts ++ [pyStrip current], in_quotes, "")
  else
    (parts, in_quotes, current.push c)

/-- The quote-aware line tokenizer of `parse_lbr_file`
(source lines 150–164). -/
def tokenize_line (line : String) : List String :=
  let st := line.toList.foldl tokenize_step ([], false, "")
  if st.2.2 ≠ "" then st.1 ++ [pyStrip st.2.2] else st.1

/-- The expected-data computation of `parse_lbr_file`
(source lines 179–181): `(width // 16) * 4 * height`, replaced by
`4 * height` when that product is 0. -/
def expected_data (width height : Int) : Int :=
  let e := (width.fdiv 16) * 4 * height
  if e = 0 then 4 * height else e

/-- The data-trimming step of `parse_lbr_file` (source lines 184–185). -/
def trim_data (width height : Int) (data_values : List String) : List String :=
  if (data_values.length : Int) > expected_data width height then
    pySliceTo data_values (expected_data width height)
  else
    data_values

/-- The per-record-line body of the loop of `parse_lbr_file`
(source lines 144–197): `none` means the line is skipped (blank line,
fewer than 5 fields, or a numeric field failing to parse). -/
def parse_record_line (line : String) : Option SpriteRecord :=
  if pyStrip line = "" then none
  else
    let parts := tokenize_line line
    if parts.length < 5 then none
    else
      match pyInt (parts.getD 0 ""), pyInt (parts.getD 2 ""),
            pyInt (parts.getD 3 "") with
      | Except.ok sprite_idx, Except.ok width, Except.ok height =>
        let sprite_name := pyStripQuotes (parts.getD 1 "")
        let data_values := parts.drop 4
        some ⟨sprite_idx, sprite_name, width, height,
              trim_data width height data_values⟩
      | _, _, _ => none

/-- The header fields of a document: `content.strip().split('\n')[0].split(',')`
(source lines 132–135). -/
def header_fields (content : String) : List String :=
  pySplitChar ((pySplitChar (pyStrip content) '\n').headD "") ','

/-- `parse_lbr_file` (source lines 124–199) on the document text: returns
the library name and the parsed sprite records, or the uncaught header
exception (`IndexError` / `ValueError`). -/
def parse_lbr_file (content : String) : Except String (String × List SpriteRecord) := do
  let lines := pySplitChar (pyStrip content) '\n'
  let header_parts := pySplitChar (lines.headD "") ','
  let library_name := pyStripQuotes (header_parts.headD "")
  let field1 ← pyIndex header_parts 1
  let _sprite_count ← pyInt field1
  let sprites := (lines.drop 1).filterMap parse_record_line
  pure (library_name, sprites)

/-! ### Basic lemmas -/

@[simp] theorem except_bind_ok {ε α β : Type} (a : α) (f : α → Except ε β) :
    (Except.ok a >>= f : Except ε β) = f a := rfl

@[simp] theorem except_bind_error {ε α β : Type} (e : ε) (f : α → Except ε β) :
    (Except.error e >>= f : Except ε β) = Except.error e := rfl

@[simp] theorem except_pure_eq {ε α : Type} (a : α) :
    (pure a : Except ε α) = Except.ok a := rfl

/-- The bits produced by `extract_bits`, spelled out: output index `i`
is bit `7 - i` of the value for `i ≤ 7` and bit `23 - i` for `8 ≤ i ≤ 15`. -/
theorem extract_bits_eq (u : Int) :
    extract_bits u =
      [bitOf u 7, bitOf u 6, bitOf u 5, bitOf u 4,
       bitOf u 3, bitOf u 2, bitOf u 1, bitOf u 0,
       bitOf u 15, bitOf u 14, bitOf u 13, bitOf u 12,
       bitOf u 11, bitOf u 10, bitOf u 9, bitOf u 8] := rfl

theorem bitOf_le_one (u : Int) (k : Nat) : bitOf u k ≤ 1 := by
  unfold bitOf
  have h1 : 0 ≤ (u.fdiv (2 ^ k)) % 2 := Int.emod_nonneg _ (by norm_num)
  have h2 : (u.fdiv (2 ^ k)) % 2 < 2 := Int.emod_lt_of_pos _ (by norm_num)
  omega

theorem extract_bits_mem_le_one (u : Int) : ∀ a ∈ extract_bits u, a ≤ 1 := by
  rw [extract_bits_eq]
  intro a ha
  fin_cases ha <;> exact bitOf_le_one _ _

theorem getD_le_one : ∀ (l : List Nat) (x : Nat), (∀ a ∈ l, a ≤ 1) → l.getD x 0 ≤ 1
  | [], x, _ => by simp
  | a :: l, 0, h => h a (by simp)
  | a :: l, x + 1, h => by
      simpa using getD_le_one l x (fun b hb => h b (by simp [hb]))

theorem getD_eq_zero : ∀ (l : List Nat) (x : Nat), (∀ a ∈ l, a = 0) → l.getD x 0 = 0
  | [], x, _ => by simp
  | a :: l, 0, h => h a (by simp)
  | a :: l, x + 1, h => by
      simpa using getD_eq_zero l x (fun b hb => h b (by simp [hb]))

theorem getD_list_cases {α : Type} :
    ∀ (l : List α) (p : Nat) (d : α), l.getD p d = d ∨ l.getD p d ∈ l
  | [], p, d => Or.inl (by simp)
  | a :: l, 0, d => Or.inr (by simp)
  | a :: l, p + 1, d => by
      rcases getD_list_cases l p d with h | h
      · exact Or.inl (by simpa using h)
      · exact Or.inr (by simp; right; simpa using h)

theorem combine_bits_le (a b c d : Nat)
    (ha : a ≤ 1) (hb : b ≤ 1) (hc : c ≤ 1) (hd : d ≤ 1) :
    ((a <<< 0) ||| (b <<< 1) ||| (c <<< 2) ||| (d <<< 3)) ≤ 15 := by
  interval_cases a <;> interval_cases b <;> interval_cases c <;> interval_cases d <;> decide

theorem combine_color_le (pbs : List (List Nat)) (x : Nat)
    (h : ∀ l ∈ pbs, ∀ a ∈ l, a ≤ 1) : combine_color pbs x ≤ 15 := by
  unfold combine_color
  have hp : ∀ p, (pbs.getD p []).getD x 0 ≤ 1 := by
    intro p
    apply getD_le_one
    rcases getD_list_cases pbs p [] with he | hm
    · rw [he]; simp
    · exact h _ hm
  exact combine_bits_le _ _ _ _ (hp 0) (hp 1) (hp 2) (hp 3)

theorem combine_color_zero (x : Nat) :
    combine_color [extract_bits 0, extract_bits 0, extract_bits 0, extract_bits 0] x = 0 := by
  unfold combine_color
  have hz : (extract_bits 0).getD x 0 = 0 := by
    apply getD_eq_zero
    intro a ha
    revert ha
    rw [show extract_bits 0 = List.replicate 16 0 from by decide]
    simp

  simp only [List.getD_cons_zero, List.getD_cons_succ]
  rw [hz]
  decide

example : pyInt "  42 " = Except.ok 42 := by decide
example : pyInt "-7" = Except.ok (-7) := by decide
example : (pyInt "abc").isOk = false := by decide
example : extract_bits 65280 = [0, 0, 0, 0, 0, 0, 0, 0, 1, 1, 1, 1, 1, 1, 1, 1] := by decide
example : signed_to_unsigned_16 (-256) = 65280 := by decide
example : tokenize_line "1,\"A B\",16,24" = ["1", "\"A B\"", "16", "24"] := by decide
example : tokenize_line "1,\"A,B\",3" = ["1", "\"A,B\"", "3"] := by decide
example :
    parse_record_line "7,\"S\",35,1,1,2,3,4,5,6,7,8" =
      some ⟨7, "S", 35, 1, ["1", "2", "3", "4", "5", "6", "7", "8"]⟩ := by decide
example :
    parse_lbr_file "\"TestLib\",2\n1,\"A\",16,1,1,2,3,4\n2,\"B\",3" =
      Except.ok ("TestLib", [⟨1, "A", 16, 1, ["1", "2", "3", "4"]⟩]) := by decide
example : parse_lbr_file "\n\"TestLib\",2" = Except.ok ("TestLib", []) := by decide
example :
    parse_sprite_data ["0", "abc", "0", "0"] 16 1 =
      Except.error "ValueError: invalid literal for int: abc" := by decide
example :
    parse_sprite_data [] 16 2 =
      Except.ok [List.replicate 16 0, List.replicate 16 0] := by decide

/-! ### C2: the plane decoder -/

/-- C2: for every signed 16-bit integer `v`, the plane decoder first
reinterprets `v` as unsigned (adding 65536 when `v < 0`, identity when
`v ≥ 0`, giving a value in `[0, 65536)`), and returns the 16 bits with
output index `i` equal to bit `7 - i` of the unsigned value for
`i ∈ [0,7]` and bit `23 - i` for `i ∈ [8,15]` (low byte first, then high
byte); decoding `0xFF00` yields eight 0s followed by eight 1s. -/
theorem C2_plane_decoder (v : Int) (h1 : -32768 ≤ v) (h2 : v < 32768) :
    signed_to_unsigned_16 v = (if v < 0 then v + 65536 else v) ∧
    0 ≤ signed_to_unsigned_16 v ∧ signed_to_unsigned_16 v < 65536 ∧
    extract_bits (signed_to_unsigned_16 v) =
      [bitOf (signed_to_unsigned_16 v) 7, bitOf (signed_to_unsigned_16 v) 6,
       bitOf (signed_to_unsigned_16 v) 5, bitOf (signed_to_unsigned_16 v) 4,
       bitOf (signed_to_unsigned_16 v) 3, bitOf (signed_to_unsigned_16 v) 2,
       bitOf (signed_to_unsigned_16 v) 1, bitOf (signed_to_unsigned_16 v) 0,
       bitOf (signed_to_unsigned_16 v) 15, bitOf (signed_to_unsigned_16 v) 14,
       bitOf (signed_to_unsigned_16 v) 13, bitOf (signed_to_unsigned_16 v) 12,
       bitOf (signed_to_unsigned_16 v) 11, bitOf (signed_to_unsigned_16 v) 10,
       bitOf (signed_to_unsigned_16 v) 9, bitOf (signed_to_unsigned_16 v) 8] ∧
    extract_bits 65280 = [0, 0, 0, 0, 0, 0, 0, 0, 1, 1, 1, 1, 1, 1, 1, 1] ∧
    signed_to_unsigned_16 (-256) = 65280 := by
  refine ⟨rfl, ?_, ?_, extract_bits_eq _, by decide, by decide⟩
  · unfold signed_to_unsigned_16; split <;> omega
  · unfold signed_to_unsigned_16; split <;> omega

/-- Witness for C2 at `v = -256`. -/
theorem C2_plane_decoder_witness :
    (-32768 ≤ (-256 : Int) ∧ (-256 : Int) < 32768) ∧
    (signed_to_unsigned_16 (-256) = (if (-256 : Int) < 0 then -256 + 65536 else -256) ∧
     0 ≤ signed_to_unsigned_16 (-256) ∧ signed_to_unsigned_16 (-256) < 65536 ∧
     extract_bits (signed_to_unsigned_16 (-256)) =
       [bitOf (signed_to_unsigned_16 (-256)) 7, bitOf (signed_to_unsigned_16 (-256)) 6,
        bitOf (signed_to_unsigned_16 (-256)) 5, bitOf (signed_to_unsigned_16 (-256)) 4,
        bitOf (signed_to_unsigned_16 (-256)) 3, bitOf (signed_to_unsigned_16 (-256)) 2,
        bitOf (signed_to_unsigned_16 (-256)) 1, bitOf (signed_to_unsigned_16 (-256)) 0,
        bitOf (signed_to_unsigned_16 (-256)) 15, bitOf (signed_to_unsigned_16 (-256)) 14,
        bitOf (signed_to_unsigned_16 (-256)) 13, bitOf (signed_to_unsigned_16 (-256)) 12,
        bitOf (signed_to_unsigned_16 (-256)) 11, bitOf (signed_to_unsigned_16 (-256)) 10,
        bitOf (signed_to_unsigned_16 (-256)) 9, bitOf (signed_to_unsigned_16 (-256)) 8] ∧
     extract_bits 65280 = [0, 0, 0, 0, 0, 0, 0, 0, 1, 1, 1, 1, 1, 1, 1, 1] ∧
     signed_to_unsigned_16 (-256) = 65280) :=
  ⟨⟨by decide, by decide⟩, C2_plane_decoder (-256) (by decide) (by decide)⟩

/-! ### C5: the tokenizer -/

/-- The tokenizer as the spec (§4.1) words it: a single left-to-right
pass over the characters; every `"` toggles the inside-quotes flag and is
kept in the field text; a `,` seen with the flag false ends the current
field (stripped of surrounding whitespace); at end of line a non-empty
accumulator is emitted as the final (stripped) field. Total on every
input: unbalanced quotes never raise an error. -/
def spec_tokenize_go (in_quotes : Bool) (acc : String) : List Char → List String
  | [] => if acc ≠ "" then [pyStrip acc] else []
  | c :: rest =>
    if c = '"' then
      spec_tokenize_go (!in_quotes) (acc.push c) rest
    else if c = ',' ∧ in_quotes = false then
      pyStrip acc :: spec_tokenize_go in_quotes "" rest
    else
      spec_tokenize_go in_quotes (acc.push c) rest

/-- The spec-worded tokenizer on a whole line. -/
def spec_tokenize (line : String) : List String :=
  spec_tokenize_go false "" line.toList

theorem tokenize_fold_go (cs : List Char) :
    ∀ (parts : List String) (inq : Bool) (cur : String),
      (if ((cs.foldl tokenize_step (parts, inq, cur)).2.2 ≠ "") then
        (cs.foldl tokenize_step (parts, inq, cur)).1 ++
          [pyStrip (cs.foldl tokenize_step (parts, inq, cur)).2.2]
      else
        (cs.foldl tokenize_step (parts, inq, cur)).1) =
      parts ++ spec_tokenize_go inq cur cs := by
  induction cs with
  | nil =>
    intro parts inq cur
    simp only [List.foldl_nil, spec_tokenize_go]
    split_ifs with h
    · simp
    · simp
  | cons c cs ih =>
    intro parts inq cur
    simp only [List.foldl_cons]
    by_cases hq : c = '"'
    · rw [show tokenize_step (parts, inq, cur) c = (parts, !inq, cur.push c) from by
        simp [tokenize_step, hq]]
      rw [ih]
      rw [show spec_tokenize_go inq cur (c :: cs) =
          spec_tokenize_go (!inq) (cur.push c) cs from by
        simp [spec_tokenize_go, hq]]
    · by_cases hc : c = ',' ∧ inq = false
      · rw [show tokenize_step (parts, inq, cur) c = (parts ++ [pyStrip cur], inq, "") from by
          simp [tokenize_step, hq, hc.1, hc.2]]
        rw [ih]
        rw [show spec_tokenize_go inq cur (c :: cs) =
            pyStrip cur :: spec_tokenize_go inq "" cs from by
          simp [spec_tokenize_go, hq, hc.1, hc.2]]
        simp
      · rw [show tokenize_step (parts, inq, cur) c = (parts, inq, cur.push c) from by
          simp only [tokenize_step]
          rw [if_neg hq, if_neg hc]]
        rw [ih]
        rw [show spec_tokenize_go inq cur (c :: cs) =
            spec_tokenize_go inq (cur.push c) cs from by
          simp only [spec_tokenize_go]
          rw [if_neg hq, if_neg hc]]

/-- C5: the code's tokenizer loop equals the spec's one-pass quote-aware
splitter: it toggles the inside-quotes flag on every `"` (keeping the
quote in the field), splits on `,` only when the flag is false, strips
each field after splitting, emits a trailing non-empty accumulator as
the final field, and is total (no error on unbalanced quotes). -/
theorem C5_tokenizer_spec (line : String) :
    tokenize_line line = spec_tokenize line := by
  unfold tokenize_line spec_tokenize
  simpa using tokenize_fold_go line.toList [] false ""

/-! ### C1: expected data length and trimming -/

/-- Every record accepted by the parser stores the trimmed tail of its
tokenized line as its data. -/
theorem parse_record_line_inv (line : String) (r : SpriteRecord)
    (h : parse_record_line line = some r) :
    r.data = trim_data r.width r.height ((tokenize_line line).drop 4) := by
  unfold parse_record_line at h
  by_cases hb : pyStrip line = ""
  · rw [if_pos hb] at h; cases h
  · rw [if_neg hb] at h
    by_cases hl : (tokenize_line line).length < 5
    · rw [if_pos hl] at h; cases h
    · rw [if_neg hl] at h
      cases h0 : pyInt ((tokenize_line line).getD 0 "") with
      | error e => rw [h0] at h; cases h
      | ok idx =>
        cases h2 : pyInt ((tokenize_line line).getD 2 "") with
        | error e => rw [h0, h2] at h; cases h
        | ok w =>
          cases h3 : pyInt ((tokenize_line line).getD 3 "") with
          | error e => rw [h0, h2, h3] at h; cases h
          | ok ht =>
            rw [h0, h2, h3] at h
            cases h
            rfl

/-- C1 (counterexample): for the record line
`7,"S",35,1,1,2,3,4,5,6,7,8` — width 35, which is not a multiple of 16,
height 1 — the parser retains all 8 data tokens, more than
`4 * height = 4`: the fallback to `4 * height` triggers only when
`(width // 16) * 4 * height` is 0, not whenever `width % 16 ≠ 0`. -/
theorem C1_counterexample :
    parse_record_line "7,\"S\",35,1,1,2,3,4,5,6,7,8" =
      some ⟨7, "S", 35, 1, ["1", "2", "3", "4", "5", "6", "7", "8"]⟩ ∧
    ¬((35 : Int) % 16 = 0) ∧
    ¬((["1", "2", "3", "4", "5", "6", "7", "8"] : List String).length ≤ 4 * 1) := by
  refine ⟨by decide, by decide, by decide⟩

/-- C1 (amended): the parser's expected data length is
`(width // 16) * 4 * height`, with the fallback to `4 * height` exactly
when that product is 0 — for positive dimensions, exactly when
`width < 16` — and not whenever `width` is not a multiple of 16. Data
tokens beyond the expected length are truncated away and a shorter data
sequence is retained unchanged; a record also stores exactly the trimmed
fields from position 4 on. For `16 ≤ width` the expected length is
`(width // 16) * 4 * height` even when `width % 16 ≠ 0`. -/
theorem C1_trim_policy (width height : Int) (data : List String)
    (hw : 1 ≤ width) (hh : 1 ≤ height) :
    (width < 16 → expected_data width height = 4 * height) ∧
    (16 ≤ width → expected_data width height = (width / 16) * 4 * height) ∧
    0 < expected_data width height ∧
    ((data.length : Int) ≤ expected_data width height →
      trim_data width height data = data) ∧
    (expected_data width height < (data.length : Int) →
      trim_data width height data = data.take (expected_data width height).toNat) ∧
    (∀ (line : String) (r : SpriteRecord), parse_record_line line = some r →
      r.data = trim_data r.width r.height ((tokenize_line line).drop 4)) := by
  have hfd : width.fdiv 16 = width / 16 := Int.fdiv_eq_ediv width (by norm_num)
  have hdiv_lt : width < 16 → width / 16 = 0 := by intro h; omega
  have hdiv_ge : 16 ≤ width → 0 < width / 16 := by intro h; omega
  have h1 : width < 16 → expected_data width height = 4 * height := by
    intro h
    unfold expected_data
    rw [hfd, hdiv_lt h]
    simp
  have h2 : 16 ≤ width → expected_data width height = (width / 16) * 4 * height := by
    intro h
    unfold expected_data
    rw [hfd]
    rw [if_neg ?_]
    have hq := hdiv_ge h
    have : 0 < (width / 16) * 4 * height :=
      mul_pos (mul_pos hq (by norm_num)) (by omega)
    omega
  have h3 : 0 < expected_data width height := by
    by_cases h : width < 16
    · rw [h1 h]; omega
    · rw [h2 (by omega)]
      exact mul_pos (mul_pos (hdiv_ge (by omega)) (by norm_num)) (by omega)
  refine ⟨h1, h2, h3, ?_, ?_, parse_record_line_inv⟩
  · intro hle
    unfold trim_data
    rw [if_neg (by omega)]
  · intro hgt
    unfold trim_data
    rw [if_pos (by omega)]
    unfold pySliceTo
    rw [if_neg (by omega)]

/-- Witness for C1's amended theorem at `width = 16`, `height = 1` and a
5-token data sequence. -/
theorem C1_trim_policy_witness :
    ((1 : Int) ≤ 16 ∧ (1 : Int) ≤ 1) ∧
    (((16 : Int) < 16 → expected_data 16 1 = 4 * 1) ∧
     ((16 : Int) ≤ 16 → expected_data 16 1 = ((16 : Int) / 16) * 4 * 1) ∧
     0 < expected_data 16 1 ∧
     (((["1", "2", "3", "4", "5"] : List String).length : Int) ≤ expected_data 16 1 →
       trim_data 16 1 ["1", "2", "3", "4", "5"] = ["1", "2", "3", "4", "5"]) ∧
     (expected_data 16 1 < (((["1", "2", "3", "4", "5"] : List String).length : Int)) →
       trim_data 16 1 ["1", "2", "3", "4", "5"] =
         (["1", "2", "3", "4", "5"] : List String).take (expected_data 16 1).toNat) ∧
     (∀ (line : String) (r : SpriteRecord), parse_record_line line = some r →
       r.data = trim_data r.width r.height ((tokenize_line line).drop 4))) :=
  ⟨⟨by decide, by decide⟩, C1_trim_policy 16 1 ["1", "2", "3", "4", "5"] (by decide) (by decide)⟩

/-! ### Parser-level lemmas -/

theorem pyIndex_of_lt {α : Type} (l : List α) (i : Nat) (d : α) (h : i < l.length) :
    pyIndex l i = Except.ok (l.getD i d) := by
  unfold pyIndex
  rw [List.getElem?_eq_getElem h, List.getD_eq_getElem l d h]

theorem pyIndex_of_oob {α : Type} (l : List α) (i : Nat) (h : l.length ≤ i) :
    pyIndex l i = Except.error "IndexError: list index out of range" := by
  unfold pyIndex
  rw [List.getElem?_eq_none h]

/-- `parse_lbr_file` with a parseable header returns the stripped first
header field as library name and the record lines filtered through
`parse_record_line`. -/
theorem parse_lbr_of_header_ok (content f1 : String) (n : Int)
    (hf : pyIndex (header_fields content) 1 = Except.ok f1)
    (hn : pyInt f1 = Except.ok n) :
    parse_lbr_file content =
      Except.ok (pyStripQuotes ((header_fields content).headD ""),
        ((pySplitChar (pyStrip content) '\n').drop 1).filterMap parse_record_line) := by
  unfold header_fields at hf
  simp only [parse_lbr_file]
  rw [hf]
  simp only [except_bind_ok]
  rw [hn]
  simp only [except_bind_ok, except_pure_eq]
  rfl

/-- `parse_lbr_file` fails with the header's `IndexError` when the header
has fewer than 2 comma-separated fields. -/
theorem parse_lbr_of_short_header (content : String)
    (h : (header_fields content).length < 2) :
    parse_lbr_file content = Except.error "IndexError: list index out of range" := by
  simp only [parse_lbr_file]
  have hoob : pyIndex (pySplitChar ((pySplitChar (pyStrip content) '\n').headD "") ',') 1 =
      Except.error "IndexError: list index out of range" := by
    apply pyIndex_of_oob
    unfold header_fields at h
    omega
  rw [hoob]
  simp only [except_bind_error]

/-- `parse_lbr_file` fails with the `int()` error when the second header
field does not parse as an integer. -/
theorem parse_lbr_of_bad_count (content : String) (e : String)
    (hlen : 2 ≤ (header_fields content).length)
    (hb : pyInt ((header_fields content).getD 1 "") = Except.error e) :
    parse_lbr_file content = Except.error e := by
  simp only [parse_lbr_file]
  have hf : pyIndex (pySplitChar ((pySplitChar (pyStrip content) '\n').headD "") ',') 1 =
      Except.ok ((header_fields content).getD 1 "") := by
    have := pyIndex_of_lt (header_fields content) 1 "" (by omega)
    unfold header_fields at this
    exact this
  rw [hf]
  simp only [except_bind_ok]
  rw [hb]
  simp only [except_bind_error]

theorem except_error_of_isOk_false {ε α : Type} (e : Except ε α) (h : e.isOk = false) :
    ∃ err, e = Except.error err := by
  cases e with
  | ok a => simp [Except.isOk, Except.toBool] at h
  | error err => exact ⟨err, rfl⟩

/-! ### C7: header errors are fatal -/

/-- C7: a header line with fewer than 2 comma-delimited fields makes the
whole parse fail with the `IndexError`; a second header field that is
not a valid integer makes it fail with the `int()` error (no partial
sprite list in either case); otherwise the parse succeeds and the
library name is header field 0 with surrounding quotes stripped, the
declared count being header field 1 parsed as an integer. -/
theorem C7_header_fatal (content : String) :
    ((header_fields content).length < 2 →
      parse_lbr_file content = Except.error "IndexError: list index out of range") ∧
    (∀ e, 2 ≤ (header_fields content).length →
      pyInt ((header_fields content).getD 1 "") = Except.error e →
      parse_lbr_file content = Except.error e) ∧
    (∀ n, 2 ≤ (header_fields content).length →
      pyInt ((header_fields content).getD 1 "") = Except.ok n →
      ∃ sprites, parse_lbr_file content =
        Except.ok (pyStripQuotes ((header_fields content).headD ""), sprites)) := by
  refine ⟨parse_lbr_of_short_header content, parse_lbr_of_bad_count content, ?_⟩
  intro n hlen hok
  exact ⟨_, parse_lbr_of_header_ok content _ n
    (pyIndex_of_lt (header_fields content) 1 "" (by omega)) hok⟩

/-- Witness for C7 on a header with no comma. -/
theorem C7_header_fatal_witness :
    parse_lbr_file "NoCommaHeader" = Except.error "IndexError: list index out of range" :=
  (C7_header_fatal "NoCommaHeader").1 (by decide)

/-! ### C6: bad record lines are skipped, never fatal -/

/-- C6: a record line tokenizing to fewer than 5 fields, or whose index,
width or height field fails integer parsing, is skipped (`none`); the
whole parse succeeds whenever the header parses, regardless of record
lines; the document `"TestLib",2` followed by one good record and one
3-field record yields library name `TestLib` and exactly 1 sprite. -/
theorem C6_bad_record_skipped (line : String) :
    ((tokenize_line line).length < 5 → parse_record_line line = none) ∧
    (((pyInt ((tokenize_line line).getD 0 "")).isOk = false ∨
      (pyInt ((tokenize_line line).getD 2 "")).isOk = false ∨
      (pyInt ((tokenize_line line).getD 3 "")).isOk = false) →
      parse_record_line line = none) ∧
    (∀ content f1 n, pyIndex (header_fields content) 1 = Except.ok f1 →
      pyInt f1 = Except.ok n → (parse_lbr_file content).isOk = true) ∧
    parse_lbr_file "\"TestLib\",2\n1,\"A\",16,1,1,2,3,4\n2,\"B\",3" =
      Except.ok ("TestLib", [⟨1, "A", 16, 1, ["1", "2", "3", "4"]⟩]) := by
  refine ⟨?_, ?_, ?_, by decide⟩
  · intro h
    simp only [parse_record_line]
    by_cases hb : pyStrip line = ""
    · rw [if_pos hb]
    · rw [if_neg hb, if_pos h]
  · intro h
    simp only [parse_record_line]
    by_cases hb : pyStrip line = ""
    · rw [if_pos hb]
    · rw [if_neg hb]
      by_cases hl : (tokenize_line line).length < 5
      · rw [if_pos hl]
      · rw [if_neg hl]
        split
        · rename_i i w ht h0 h2 h3
          rcases h with h | h | h
          · rw [h0] at h; simp [Except.isOk, Except.toBool] at h
          · rw [h2] at h; simp [Except.isOk, Except.toBool] at h
          · rw [h3] at h; simp [Except.isOk, Except.toBool] at h
        · rfl
  · intro content f1 n hf hn
    rw [parse_lbr_of_header_ok content f1 n hf hn]
    rfl

/-- Witness for C6 on a 3-field record line. -/
theorem C6_bad_record_skipped_witness :
    parse_record_line "2,\"B\",3" = none :=
  (C6_bad_record_skipped "2,\"B\",3").1 (by decide)

/-! ### C9: the header is not tokenized quote-aware -/

/-- C9: the header line is split on every comma (`split(',')`), not with
the quote-aware tokenizer: for the document whose header is `"A,B",3`,
the second split field is the remainder of the quoted name (`B"`), not
the sprite count, so the whole parse fails fatally with the
integer-conversion error instead of returning a library named `A,B`. -/
theorem C9_header_split_not_quote_aware :
    header_fields "\"A,B\",3\n1,\"X\",16,1,1,2,3,4" = ["\"A", "B\"", "3"] ∧
    tokenize_line "\"A,B\",3" = ["\"A,B\"", "3"] ∧
    pyInt "B\"" = Except.error "ValueError: invalid literal for int: B\"" ∧
    parse_lbr_file "\"A,B\",3\n1,\"X\",16,1,1,2,3,4" =
      Except.error "ValueError: invalid literal for int: B\"" := by
  refine ⟨by decide, by decide, by decide, by decide⟩

/-! ### C8: document-level line splitting -/

theorem dropWhile_append_all {p : Char → Bool} : ∀ (l1 l2 : List Char),
    (∀ c ∈ l1, p c = true) → (l1 ++ l2).dropWhile p = l2.dropWhile p
  | [], l2, _ => rfl
  | c :: l1, l2, h => by
      simp only [List.cons_append, List.dropWhile_cons, h c (by simp)]
      exact dropWhile_append_all l1 l2 (fun b hb => h b (by simp [hb]))

theorem dropWhile_eq_nil_all {p : Char → Bool} : ∀ (l : List Char),
    (∀ c ∈ l, p c = true) → l.dropWhile p = []
  | [], _ => rfl
  | c :: l, h => by
      simp only [List.dropWhile_cons, h c (by simp)]
      exact dropWhile_eq_nil_all l (fun b hb => h b (by simp [hb]))

/-- Stripping is invariant under surrounding all-whitespace text. -/
theorem pyStrip_surround (content pre post : String)
    (hpre : ∀ c ∈ pre.toList, isPySpace c = true)
    (hpost : ∀ c ∈ post.toList, isPySpace c = true) :
    pyStrip (pre ++ content ++ post) = pyStrip content := by
  unfold pyStrip
  have htl : (pre ++ content ++ post).toList =
      pre.toList ++ (content.toList ++ post.toList) := by
    simp [String.toList]
  rw [htl, dropWhile_append_all _ _ hpre, List.dropWhile_append]
  by_cases hcd : (content.toList.dropWhile isPySpace).isEmpty
  · rw [if_pos hcd]
    rw [dropWhile_eq_nil_all _ hpost]
    rw [List.isEmpty_iff.mp hcd]
  · rw [if_neg hcd, List.reverse_append]
    rw [dropWhile_append_all _ _ (fun c hc => hpost c (List.mem_reverse.mp hc))]

/-- `parse_lbr_file` only looks at the stripped document. -/
theorem parse_lbr_strip_congr (a b : String) (h : pyStrip a = pyStrip b) :
    parse_lbr_file a = parse_lbr_file b := by
  simp only [parse_lbr_file, h]

/-- C8 (counterexample): a document that begins with an empty line
followed by a valid header parses successfully: `content.strip()` also
removes leading whitespace, so the empty first line is not treated as
the header and the parse does not fail. -/
theorem C8_counterexample :
    parse_lbr_file "\n\"TestLib\",2" = Except.ok ("TestLib", []) ∧
    (parse_lbr_file "\n\"TestLib\",2").isOk = true := by
  refine ⟨by decide, by decide⟩

/-- C8 (amended): before splitting on line feeds the parser strips all
leading AND trailing whitespace of the document — not only a trailing
empty line — so the parse result is invariant under surrounding
whitespace (in particular a leading empty line is discarded and a valid
header after it is used); the first line of the stripped document is the
header, and subsequent blank lines are skipped silently. -/
theorem C8_line_splitting (content pre post : String)
    (hpre : ∀ c ∈ pre.toList, isPySpace c = true)
    (hpost : ∀ c ∈ post.toList, isPySpace c = true) :
    parse_lbr_file (pre ++ content ++ post) = parse_lbr_file content ∧
    (∀ line, pyStrip line = "" → parse_record_line line = none) ∧
    parse_lbr_file "\n\"TestLib\",2" = parse_lbr_file "\"TestLib\",2" := by
  refine ⟨parse_lbr_strip_congr _ _ (pyStrip_surround content pre post hpre hpost), ?_, ?_⟩
  · intro line h
    simp only [parse_record_line]
    rw [if_pos h]
  · exact parse_lbr_strip_congr _ _ (by decide)

/-- Witness for C8's amended theorem: a leading line feed. -/
theorem C8_line_splitting_witness :
    parse_lbr_file ("\n" ++ "\"TestLib\",2" ++ "") = parse_lbr_file "\"TestLib\",2" :=
  (C8_line_splitting "\"TestLib\",2" "\n" "" (by decide) (by decide)).1

/-! ### C10: data tokens are not validated by the parser -/

/-- C10: the parser performs no numeric validation of data tokens
(fields 4 and on): a record line whose index, width and height parse but
whose data contains a non-numeric token is accepted into the sprite
list, and rasterizing that record raises the `int()` conversion error
when the bad token is among the 4 words consumed for a fully-available
row — it is neither skipped nor replaced by zeros. -/
theorem C10_no_data_validation :
    parse_lbr_file "\"L\",1\n1,\"X\",16,1,0,abc,0,0" =
      Except.ok ("L", [⟨1, "X", 16, 1, ["0", "abc", "0", "0"]⟩]) ∧
    parse_sprite_data ["0", "abc", "0", "0"] 16 1 =
      Except.error "ValueError: invalid literal for int: abc" ∧
    (∀ (t0 bad t2 t3 e : String) (v : Int),
      pyInt t0 = Except.ok v → pyInt bad = Except.error e →
      parse_sprite_data [t0, bad, t2, t3] 16 1 = Except.error e) := by
  refine ⟨by decide, by decide, ?_⟩
  intro t0 bad t2 t3 e v h0 hbad
  show sprite_rows [t0, bad, t2, t3] 16 0 1 = Except.error e
  simp only [sprite_rows, sprite_row]
  rw [if_neg (by simp)]
  rw [show pyIndex [t0, bad, t2, t3] 0 = Except.ok t0 from rfl]
  simp only [except_bind_ok]
  rw [h0]
  simp only [except_bind_ok]
  rw [show pyIndex [t0, bad, t2, t3] 1 = Except.ok bad from rfl]
  simp only [except_bind_ok]
  rw [hbad]
  simp only [except_bind_error]

/-- Witness for C10's generic conjunct. -/
theorem C10_no_data_validation_witness :
    parse_sprite_data ["7", "zz", "1", "2"] 16 1 =
      Except.error "ValueError: invalid literal for int: zz" :=
  C10_no_data_validation.2.2 "7" "zz" "1" "2"
    "ValueError: invalid literal for int: zz" 7 (by decide) (by decide)

/-! ### Rasterizer lemmas -/

theorem except_ok_of_isOk {ε α : Type} (e : Except ε α) (h : e.isOk = true) :
    ∃ a, e = Except.ok a := by
  cases e with
  | ok a => exact ⟨a, rfl⟩
  | error err => simp [Except.isOk, Except.toBool] at h

theorem getD_mem {α : Type} : ∀ (l : List α) (i : Nat) (d : α),
    i < l.length → l.getD i d ∈ l
  | [], i, d, h => by simp at h
  | a :: l, 0, d, _ => by simp
  | a :: l, i + 1, d, h => by
      simp only [List.getD_cons_succ, List.mem_cons]
      exact Or.inr (getD_mem l i d (by simpa using h))

theorem getD_map_range (n x : Nat) (f : Nat → Nat) (h : x < n) :
    ((List.range n).map f).getD x 0 = f x := by
  rw [List.getD_eq_getElem _ 0 (by simpa using h)]
  simp

/-- A row whose 4 plane words are not fully available is the all-zero
row: the code substitutes `[0, 0, 0, 0]` as plane values. -/
theorem sprite_row_pad (data : List String) (w : Int) (idx : Nat)
    (h : data.length < idx + 4) :
    sprite_row data w idx = Except.ok (List.replicate w.toNat 0) := by
  simp only [sprite_row]
  rw [if_pos h]
  simp only [except_pure_eq, except_bind_ok]
  refine congrArg Except.ok ?_
  refine List.eq_replicate_iff.mpr ⟨by simp, ?_⟩
  intro b hb
  simp only [List.mem_map, List.mem_range] at hb
  obtain ⟨x, hx, rfl⟩ := hb
  by_cases h16 : x < 16
  · rw [if_pos h16]
    exact combine_color_zero x
  · rw [if_neg h16]

/-- A row whose 4 plane words are available and parse as integers is the
decoded combination of the 4 consecutive words at the cursor. -/
theorem sprite_row_avail (data : List String) (w : Int) (idx : Nat)
    (hlen : idx + 4 ≤ data.length) (v0 v1 v2 v3 : Int)
    (h0 : pyInt (data.getD idx "") = Except.ok v0)
    (h1 : pyInt (data.getD (idx + 1) "") = Except.ok v1)
    (h2 : pyInt (data.getD (idx + 2) "") = Except.ok v2)
    (h3 : pyInt (data.getD (idx + 3) "") = Except.ok v3) :
    sprite_row data w idx = Except.ok ((List.range w.toNat).map (fun x =>
      if x < 16 then
        combine_color
          [extract_bits (signed_to_unsigned_16 v0),
           extract_bits (signed_to_unsigned_16 v1),
           extract_bits (signed_to_unsigned_16 v2),
           extract_bits (signed_to_unsigned_16 v3)] x
      else 0)) := by
  simp only [sprite_row]
  rw [if_neg (by omega)]
  rw [pyIndex_of_lt data idx "" (by omega)]
  simp only [except_bind_ok]
  rw [h0]
  simp only [except_bind_ok]
  rw [pyIndex_of_lt data (idx + 1) "" (by omega)]
  simp only [except_bind_ok]
  rw [h1]
  simp only [except_bind_ok]
  rw [pyIndex_of_lt data (idx + 2) "" (by omega)]
  simp only [except_bind_ok]
  rw [h2]
  simp only [except_bind_ok]
  rw [pyIndex_of_lt data (idx + 3) "" (by omega)]
  simp only [except_bind_ok]
  rw [h3]
  simp only [except_bind_ok, except_pure_eq]
  rfl

/-- Any `ok` row has `width` pixels, all with color index in `[0, 15]`. -/
theorem sprite_row_shape (data : List String) (w : Int) (idx : Nat) (row : List Nat)
    (h : sprite_row data w idx = Except.ok row) :
    row.length = w.toNat ∧ ∀ c ∈ row, c ≤ 15 := by
  by_cases hp : data.length < idx + 4
  · rw [sprite_row_pad data w idx hp] at h
    cases h
    refine ⟨by simp, ?_⟩
    intro c hc
    rw [List.eq_of_mem_replicate hc]
    omega
  · simp only [sprite_row] at h
    rw [if_neg hp] at h
    rw [pyIndex_of_lt data idx "" (by omega)] at h
    simp only [except_bind_ok] at h
    cases h0 : pyInt (data.getD idx "") with
    | error e => rw [h0] at h; simp only [except_bind_error] at h; cases h
    | ok v0 =>
    rw [h0] at h
    simp only [except_bind_ok] at h
    rw [pyIndex_of_lt data (idx + 1) "" (by omega)] at h
    simp only [except_bind_ok] at h
    cases h1 : pyInt (data.getD (idx + 1) "") with
    | error e => rw [h1] at h; simp only [except_bind_error] at h; cases h
    | ok v1 =>
    rw [h1] at h
    simp only [except_bind_ok] at h
    rw [pyIndex_of_lt data (idx + 2) "" (by omega)] at h
    simp only [except_bind_ok] at h
    cases h2 : pyInt (data.getD (idx + 2) "") with
    | error e => rw [h2] at h; simp only [except_bind_error] at h; cases h
    | ok v2 =>
    rw [h2] at h
    simp only [except_bind_ok] at h
    rw [pyIndex_of_lt data (idx + 3) "" (by omega)] at h
    simp only [except_bind_ok] at h
    cases h3 : pyInt (data.getD (idx + 3) "") with
    | error e => rw [h3] at h; simp only [except_bind_error] at h; cases h
    | ok v3 =>
    rw [h3] at h
    simp only [except_bind_ok, except_pure_eq] at h
    cases h
    refine ⟨by simp, ?_⟩
    intro c hc
    simp only [List.mem_map, List.mem_range] at hc
    obtain ⟨x, hx, rfl⟩ := hc
    by_cases h16 : x < 16
    · rw [if_pos h16]
      apply combine_color_le
      intro l hl
      simp only [List.map_cons, List.map_nil, List.mem_cons, List.not_mem_nil, or_false] at hl
      rcases hl with rfl | rfl | rfl | rfl <;> exact extract_bits_mem_le_one _
    · rw [if_neg h16]
      omega

/-- Every `ok` result of the row loop has one entry per requested row,
and row `r` is exactly `sprite_row` at cursor `idx + 4 * r`. -/
theorem sprite_rows_get (data : List String) (w : Int) :
    ∀ (n idx : Nat) (g : List (List Nat)),
      sprite_rows data w idx n = Except.ok g →
      g.length = n ∧
        ∀ r, r < n → sprite_row data w (idx + 4 * r) = Except.ok (g.getD r [])
  | 0, idx, g, h => by
      simp only [sprite_rows, except_pure_eq] at h
      cases h
      exact ⟨rfl, fun r hr => absurd hr (by omega)⟩
  | n + 1, idx, g, h => by
      simp only [sprite_rows] at h
      cases hr : sprite_row data w idx with
      | error e => rw [hr] at h; simp only [except_bind_error] at h; cases h
      | ok row =>
      rw [hr] at h
      simp only [except_bind_ok] at h
      cases hrest : sprite_rows data w (idx + 4) n with
      | error e => rw [hrest] at h; simp only [except_bind_error] at h; cases h
      | ok rest =>
      rw [hrest] at h
      simp only [except_bind_ok, except_pure_eq] at h
      cases h
      obtain ⟨hlen, hget⟩ := sprite_rows_get data w n (idx + 4) rest hrest
      refine ⟨by simp [hlen], ?_⟩
      intro r hrlt
      cases r with
      | zero => simpa using hr
      | succ r' =>
        have hr' := hget r' (by omega)
        rw [show idx + 4 * (r' + 1) = idx + 4 + 4 * r' from by ring]
        simpa using hr'

/-- When all tokens parse, one row always decodes. -/
theorem sprite_row_ok (data : List String) (w : Int) (idx : Nat)
    (hnum : ∀ s ∈ data, (pyInt s).isOk = true) :
    ∃ row, sprite_row data w idx = Except.ok row := by
  by_cases h : data.length < idx + 4
  · exact ⟨_, sprite_row_pad data w idx h⟩
  · obtain ⟨v0, h0⟩ := except_ok_of_isOk _ (hnum _ (getD_mem data idx "" (by omega)))
    obtain ⟨v1, h1⟩ := except_ok_of_isOk _ (hnum _ (getD_mem data (idx + 1) "" (by omega)))
    obtain ⟨v2, h2⟩ := except_ok_of_isOk _ (hnum _ (getD_mem data (idx + 2) "" (by omega)))
    obtain ⟨v3, h3⟩ := except_ok_of_isOk _ (hnum _ (getD_mem data (idx + 3) "" (by omega)))
    exact ⟨_, sprite_row_avail data w idx (by omega) v0 v1 v2 v3 h0 h1 h2 h3⟩

/-- When all tokens parse, the whole row loop succeeds. -/
theorem sprite_rows_ok (data : List String) (w : Int)
    (hnum : ∀ s ∈ data, (pyInt s).isOk = true) :
    ∀ (n idx : Nat), ∃ g, sprite_rows data w idx n = Except.ok g
  | 0, idx => ⟨[], rfl⟩
  | n + 1, idx => by
      obtain ⟨row, hrow⟩ := sprite_row_ok data w idx hnum
      obtain ⟨rest, hrest⟩ := sprite_rows_ok data w hnum n (idx + 4)
      refine ⟨row :: rest, ?_⟩
      simp only [sprite_rows]
      rw [hrow]
      simp only [except_bind_ok]
      rw [hrest]
      simp only [except_bind_ok, except_pure_eq]

/-! ### C3 and C4: the rasterizer -/

/-- C3: for every `width ≥ 1`, `height ≥ 1` and every data sequence of
numeric tokens (any length, including 0), the rasterizer returns —
without raising — a grid with exactly `height` rows; every row whose 4
plane words are not fully available is the all-zero row (substituted
plane values, the cursor never reading past the end: an out-of-range
read would surface as an `IndexError` and the result could not be
`ok`); an empty data sequence yields a grid entirely of color 0. -/
theorem C3_rasterizer_total (width height : Int) (data : List String)
    (hw : 1 ≤ width) (hh : 1 ≤ height)
    (hnum : ∀ s ∈ data, (pyInt s).isOk = true) :
    ∃ grid, parse_sprite_data data width height = Except.ok grid ∧
      grid.length = height.toNat ∧
      (∀ r, r < height.toNat → data.length < 4 * r + 4 →
        grid.getD r [] = List.replicate width.toNat 0) ∧
      (data = [] → grid = List.replicate height.toNat (List.replicate width.toNat 0)) := by
  obtain ⟨g, hg⟩ := sprite_rows_ok data width hnum height.toNat 0
  obtain ⟨hlen, hget⟩ := sprite_rows_get data width height.toNat 0 g hg
  refine ⟨g, hg, hlen, ?_, ?_⟩
  · intro r hr hshort
    have h1 := hget r hr
    rw [sprite_row_pad data width (0 + 4 * r) (by omega)] at h1
    exact (Except.ok.inj h1).symm
  · intro hd
    subst hd
    refine List.eq_replicate_iff.mpr ⟨hlen, ?_⟩
    intro row hrow
    obtain ⟨r, hrl, hreq⟩ := List.mem_iff_getElem.mp hrow
    have h1 := hget r (by omega)
    rw [sprite_row_pad _ _ _ (by simp)] at h1
    have h3 : g.getD r [] = row := by rw [List.getD_eq_getElem g [] hrl, hreq]
    rw [h3] at h1
    exact (Except.ok.inj h1).symm

/-- Witness for C3 at `width = 16`, `height = 2`, empty data. -/
theorem C3_rasterizer_total_witness :
    ((1 : Int) ≤ 16 ∧ (1 : Int) ≤ 2 ∧
      (∀ s ∈ ([] : List String), (pyInt s).isOk = true)) ∧
    (∃ grid, parse_sprite_data [] 16 2 = Except.ok grid ∧
      grid.length = (2 : Int).toNat ∧
      (∀ r, r < (2 : Int).toNat → ([] : List String).length < 4 * r + 4 →
        grid.getD r [] = List.replicate (16 : Int).toNat 0) ∧
      (([] : List String) = [] →
        grid = List.replicate (2 : Int).toNat (List.replicate (16 : Int).toNat 0))) :=
  ⟨⟨by decide, by decide, by simp⟩, C3_rasterizer_total 16 2 [] (by decide) (by decide) (by simp)⟩

/-- C4: in any grid the rasterizer returns, every row has `width` pixels
with color indices in `[0, 15]`; row `r`, when its 4 consecutive plane
words (at positions `4r … 4r+3`) are available with values
`v0, v1, v2, v3`, has at column `x < 16` the color
`plane0_bit ||| plane1_bit <<< 1 ||| plane2_bit <<< 2 ||| plane3_bit <<< 3`
(each plane bit decoded by `extract_bits` after the unsigned
reinterpretation) and color 0 at `x ≥ 16`; a 16×24 record with exactly
96 numeric data values yields a grid of exactly 24 rows of 16 columns. -/
theorem C4_pixel_formula (data : List String) (width height : Int)
    (grid : List (List Nat))
    (hok : parse_sprite_data data width height = Except.ok grid) :
    (∀ row ∈ grid, row.length = width.toNat ∧ ∀ c ∈ row, c ≤ 15) ∧
    (∀ r, r < height.toNat → 4 * r + 4 ≤ data.length →
      ∀ v0 v1 v2 v3 : Int,
      pyInt (data.getD (4 * r) "") = Except.ok v0 →
      pyInt (data.getD (4 * r + 1) "") = Except.ok v1 →
      pyInt (data.getD (4 * r + 2) "") = Except.ok v2 →
      pyInt (data.getD (4 * r + 3) "") = Except.ok v3 →
      ∀ x, x < width.toNat →
        (grid.getD r []).getD x 0 =
          if x < 16 then
            ((extract_bits (signed_to_unsigned_16 v0)).getD x 0 <<< 0) |||
            ((extract_bits (signed_to_unsigned_16 v1)).getD x 0 <<< 1) |||
            ((extract_bits (signed_to_unsigned_16 v2)).getD x 0 <<< 2) |||
            ((extract_bits (signed_to_unsigned_16 v3)).getD x 0 <<< 3)
          else 0) ∧
    (∀ d : List String, d.length = 96 → (∀ s ∈ d, (pyInt s).isOk = true) →
      ∃ g, parse_sprite_data d 16 24 = Except.ok g ∧ g.length = 24 ∧
        ∀ row ∈ g, row.length = 16) := by
  obtain ⟨hlen, hget⟩ := sprite_rows_get data width height.toNat 0 grid hok
  refine ⟨?_, ?_, ?_⟩
  · intro row hrow
    obtain ⟨r, hrl, hreq⟩ := List.mem_iff_getElem.mp hrow
    have h1 := hget r (by omega)
    have h2 : grid.getD r [] = row := by rw [List.getD_eq_getElem grid [] hrl, hreq]
    rw [h2] at h1
    exact sprite_row_shape data width (0 + 4 * r) row h1
  · intro r hr havail v0 v1 v2 v3 h0 h1 h2 h3 x hx
    have hrow := hget r hr
    rw [Nat.zero_add] at hrow
    rw [sprite_row_avail data width (4 * r) (by omega) v0 v1 v2 v3 h0 h1 h2 h3] at hrow
    have hgr : grid.getD r [] = (List.range width.toNat).map (fun x =>
        if x < 16 then
          combine_color
            [extract_bits (signed_to_unsigned_16 v0),
             extract_bits (signed_to_unsigned_16 v1),
             extract_bits (signed_to_unsigned_16 v2),
             extract_bits (signed_to_unsigned_16 v3)] x
        else 0) := (Except.ok.inj hrow).symm
    rw [hgr, getD_map_range _ x _ hx]
    rfl
  · intro d hd96 hdnum
    obtain ⟨g, hg⟩ := sprite_rows_ok d 16 hdnum (24 : Int).toNat 0
    obtain ⟨hglen, hgget⟩ := sprite_rows_get d 16 (24 : Int).toNat 0 g hg
    refine ⟨g, hg, by simpa using hglen, ?_⟩
    intro row hrow
    obtain ⟨r, hrl, hreq⟩ := List.mem_iff_getElem.mp hrow
    have h1 := hgget r (by omega)
    have h2 : g.getD r [] = row := by rw [List.getD_eq_getElem g [] hrl, hreq]
    rw [h2] at h1
    have h3 := (sprite_row_shape d 16 (0 + 4 * r) row h1).1
    simpa using h3

/-- Witness for C4 at a concrete one-row record whose plane-0 word is
`-1` (all 16 bits set): pixel (0,0) equals the stated combination. -/
theorem C4_pixel_formula_witness :
    (([List.replicate 16 1] : List (List Nat)).getD 0 []).getD 0 0 =
      (if (0 : Nat) < 16 then
        ((extract_bits (signed_to_unsigned_16 (-1))).getD 0 0 <<< 0) |||
        ((extract_bits (signed_to_unsigned_16 0)).getD 0 0 <<< 1) |||
        ((extract_bits (signed_to_unsigned_16 0)).getD 0 0 <<< 2) |||
        ((extract_bits (signed_to_unsigned_16 0)).getD 0 0 <<< 3)
      else 0) :=
  (C4_pixel_formula ["-1", "0", "0", "0"] 16 1 [List.replicate 16 1] (by decide)).2.1
    0 (by decide) (by decide) (-1) 0 0 0 (by decide) (by decide) (by decide) (by decide)
    0 (by decide)
